import Mathlib

/-!
A shallow embedding of the geocoding pipeline of this repository.

The primary source is src/main.py; the fragments of src/00.basic_model.py
and src/01.advanced_model.py that diverge from it (cache loading, the
decorator-based rate limiting) are embedded separately where a claim
depends on them.

Modelling conventions:
 - machine floats only matter to the control flow through presence
   (`None`) and zero-ness (Python truthiness), so coordinates are
   rationals wrapped in `Option`;
 - the external provider is a deterministic oracle from (query string,
   attempt index) to a response;
 - a Python function that can fall off the end (returning a bare `None`)
   or raise is given an `Option`/`Except` result type;
 - dictionaries are insertion-ordered association lists.
-/

/-- A latitude or longitude as the scripts hold it: `none` models Python
`None`, `some q` a numeric value. -/
abbrev Coord := Option Rat

/-- A `(lat, lon)` pair as produced by `geocode`. -/
abbrev CoordPair := Coord × Coord

/-- The `geocode_cache` dict: key (postcode token or raw address) to
result pair, insertion ordered. -/
abbrev Cache := List (String × CoordPair)

/-- Python `location in geocode_cache` / `geocode_cache[location]`. -/
def cacheFind : Cache → String → Option CoordPair
  | [], _ => none
  | (k, v) :: rest, key => if key = k then some v else cacheFind rest key

/-- Python `geocode_cache[location] = result`: overwrite an existing key
in place, otherwise append. -/
def cacheInsert : Cache → String → CoordPair → Cache
  | [], key, v => [(key, v)]
  | (k, w) :: rest, key, v =>
    if key = k then (key, v) :: rest else (k, w) :: cacheInsert rest key v

/-- Python truthiness of an optional coordinate (`None` and `0.0` are
falsy), as tested by `if lat and lon` in `geocode_with_fallback`. -/
def truthyQ : Coord → Bool
  | none => false
  | some q => decide (q ≠ 0)

/-- One row of the batch after postcode extraction: `row['address']` and
`row['postcode']`. -/
structure Row where
  address : String
  postcode : Option String
deriving DecidableEq

/-- Outcome of a single `geolocator.geocode(query)` call: a found
location with its coordinates, a clean no-match (a falsy result object),
or a transient failure (`GeocoderTimedOut` / `GeocoderServiceError`). -/
inductive ProviderResponse where
  | ok (lat lon : Rat)
  | noMatch
  | transient
deriving DecidableEq

/-- The opaque remote provider as a deterministic oracle over query
string and attempt index. -/
abbrev Provider := String → Nat → ProviderResponse

/-- Everything observable about one `geocode` call in src/main.py:
the returned value (`none` = the function fell off the loop and returned
a bare Python `None`, `some pair` = a two-component tuple), the cache
afterwards, the provider queries attempted in order, the backoff delays
slept in order, and whether the retries-exhausted warning was logged. -/
structure GeoResult where
  ret : Option CoordPair
  cache : Cache
  queries : List String
  sleeps : List Nat
  warned : Bool
deriving DecidableEq

/-- The `for attempt in range(MAX_RETRIES)` loop body of `geocode` in
src/main.py, starting at attempt index `attempt` with `r` iterations
left (`r = MAX_RETRIES.toNat - attempt` at the top call).  On a found
location the pair is cached and returned; on a clean no-match
`(None, None)` is returned uncached; on a transient error the last
attempt logs a warning and returns `(None, None)`, earlier attempts
sleep `2 ** attempt` and continue. -/
def geocodeAux (p : Provider) (mr : Int) (query k : String) (c : Cache) :
    Nat → Nat → GeoResult
  | _, 0 => ⟨none, c, [], [], false⟩
  | attempt, r + 1 =>
    match p query attempt with
    | .ok lat lon =>
      ⟨some (some lat, some lon), cacheInsert c k (some lat, some lon),
        [query], [], false⟩
    | .noMatch => ⟨some (none, none), c, [query], [], false⟩
    | .transient =>
      if (attempt : Int) = mr - 1 then ⟨some (none, none), c, [query], [], true⟩
      else
        let g := geocodeAux p mr query k c (attempt + 1) r
        ⟨g.ret, g.cache, query :: g.queries, 2 ^ attempt :: g.sleeps, g.warned⟩

/-- The provider query string: `f"{location}, UK"` for a postcode,
the raw string otherwise. -/
def queryOf (ispc : Bool) (k : String) : String := if ispc then k ++ (", UK") else k

/-- `geocode(location, is_postcode)` from src/main.py.  A cached key is
answered from the cache; otherwise the retry loop runs.  `mr` is the
configured `MAX_RETRIES`; Python `range(mr)` is empty for `mr ≤ 0`,
modelled by `mr.toNat` iterations. -/
def geocode (p : Provider) (mr : Int) (c : Cache) (k : String) (ispc : Bool) :
    GeoResult :=
  match cacheFind c k with
  | some v => ⟨some v, c, [], [], false⟩
  | none => geocodeAux p mr (queryOf ispc k) k c 0 mr.toNat

/-- The observable outcome of one `geocode_with_fallback` call. -/
structure FBRes where
  ret : CoordPair
  cache : Cache
  queries : List String
  sleeps : List Nat
  warned : Bool
deriving DecidableEq

/-- The trailing `return geocode(row['address'], is_postcode=False)` of
`geocode_with_fallback`: the raw-address lookup, whose bare-`None`
outcome (only possible when `MAX_RETRIES ≤ 0`) propagates as `none`. -/
def rawLookup (p : Provider) (mr : Int) (c : Cache) (addr : String) :
    Option FBRes :=
  match (geocode p mr c addr false).ret with
  | none => none
  | some pr =>
    some ⟨pr, (geocode p mr c addr false).cache,
      (geocode p mr c addr false).queries, (geocode p mr c addr false).sleeps,
      (geocode p mr c addr false).warned⟩

/-- `geocode_with_fallback(row)` from src/main.py.  A truthy (present,
non-empty) postcode is looked up first; its pair is unpacked
(`lat, lon = geocode(...)`, a `TypeError` — modelled `none` — if the
lookup returned a bare `None`) and returned when `lat and lon` is
truthy; otherwise the raw address is looked up. -/
def geocode_with_fallback (p : Provider) (mr : Int) (c : Cache) (row : Row) :
    Option FBRes :=
  match row.postcode with
  | none => rawLookup p mr c row.address
  | some pc =>
    if pc = ("") then rawLookup p mr c row.address
    else
      match (geocode p mr c pc true).ret with
      | none => none
      | some (lat, lon) =>
        if truthyQ lat && truthyQ lon then
          some ⟨(lat, lon), (geocode p mr c pc true).cache,
            (geocode p mr c pc true).queries, (geocode p mr c pc true).sleeps,
            (geocode p mr c pc true).warned⟩
        else
          match rawLookup p mr ((geocode p mr c pc true).cache) row.address with
          | none => none
          | some f2 =>
            some ⟨f2.ret, f2.cache,
              (geocode p mr c pc true).queries ++ f2.queries,
              (geocode p mr c pc true).sleeps ++ f2.sleeps,
              ((geocode p mr c pc true).warned || f2.warned)⟩

/-! ## The postcode regex

`extract_postcode` searches the address for the first match of
`\b[A-Z]{1,2}[0-9][A-Z0-9]? [0-9][ABD-HJLNP-UW-Z]{2}\b`.
The character classes are embedded through code points; `\b` (a word
boundary) is embedded with the word-character class `[A-Za-z0-9_]`,
which is exact on ASCII text (Python's Unicode `\w` is broader outside
ASCII).  `re.search` returns the leftmost match, preferring at each
start position the greedy alternatives (two leading letters before one,
the optional third character present before absent). -/

/-- The regex class `[A-Z]`. -/
def isUpper (c : Char) : Bool := 65 ≤ c.toNat && c.toNat ≤ 90

/-- Lowercase ASCII letters (only used for the word-boundary class). -/
def isLowerCh (c : Char) : Bool := 97 ≤ c.toNat && c.toNat ≤ 122

/-- The regex class `[0-9]`. -/
def isDigitCh (c : Char) : Bool := 48 ≤ c.toNat && c.toNat ≤ 57

/-- The word-character class underlying `\b`, over the ASCII range:
`[A-Za-z0-9_]`.  Python compiles the pattern in Unicode mode, where `\w`
also covers non-ASCII alphanumerics (e.g. `é`), so this embedding of the
boundary test is exact precisely for ASCII text; every statement made
here about extraction is therefore asserted only for ASCII inputs
(`asciiOnly` below). -/
def isWordChar (c : Char) : Bool :=
  isUpper c || isLowerCh c || isDigitCh c || c.toNat = 95

/-- The inputs on which the embedded boundary test coincides with the
source's Unicode-mode `\b`: strings of ASCII characters only. -/
def asciiOnly (s : String) : Bool := s.data.all (fun c => c.toNat < 128)

/-- The regex class `[ABD-HJLNP-UW-Z]` of the final pair: uppercase
letters with the visually ambiguous C, I, K, M, O, V excluded. -/
def isRestricted (c : Char) : Bool :=
  isUpper c &&
    !(c = ('C') || c = ('I') || c = ('K') || c = ('M') || c = ('O') || c = ('V'))

/-- The inward part `[0-9][ABD-HJLNP-UW-Z]{2}`. -/
def inwardOK (d r1 r2 : Char) : Bool := isDigitCh d && isRestricted r1 && isRestricted r2

/-- The trailing word boundary `\b`: the text after the match is empty
or starts with a non-word character. -/
def okAfter : List Char → Bool
  | [] => true
  | c :: _ => !isWordChar c

/-- Matches ` [0-9][ABD-HJLNP-UW-Z]{2}\b` at the front of the text,
returning the matched characters. -/
def matchEnd : List Char → Option (List Char)
  | sp :: d :: r1 :: r2 :: rest =>
    if sp = (' ') && inwardOK d r1 r2 && okAfter rest then some [sp, d, r1, r2]
    else none
  | _ => none

/-- Matches `[0-9][A-Z0-9]? [0-9][ABD-HJLNP-UW-Z]{2}\b` at the front of
the text (everything after the leading letters), trying the greedy
optional character first as `re` does. -/
def matchTail : List Char → Option (List Char)
  | [] => none
  | d :: rest =>
    if isDigitCh d then
      match rest with
      | [] => none
      | x :: rest2 =>
        if isUpper x || isDigitCh x then
          match matchEnd rest2 with
          | some e => some (d :: x :: e)
          | none => (matchEnd rest).map (fun e => d :: e)
        else (matchEnd rest).map (fun e => d :: e)
    else none

/-- Matches the whole pattern minus the leading `\b` at the front of the
text, trying two leading letters before one as `re` does. -/
def matchHere : List Char → Option (List Char)
  | [] => none
  | a :: rest =>
    if isUpper a then
      match rest with
      | [] => none
      | b :: rest2 =>
        if isUpper b then
          match matchTail rest2 with
          | some m => some (a :: b :: m)
          | none => (matchTail rest).map (fun m => a :: m)
        else (matchTail rest).map (fun m => a :: m)
    else none

/-- The leading `\b` at the current position: the previous character
(`none` at the start of the string) is absent or a non-word character
(the first matched character is a word character by `[A-Z]`). -/
def prevOK : Option Char → Bool
  | none => true
  | some c => !isWordChar c

/-- `re.search`: scan positions left to right, at each boundary-eligible
position attempt the pattern, return the first success. -/
def searchFrom : Option Char → List Char → Option (List Char)
  | _, [] => none
  | prev, c :: rest =>
    if prevOK prev then
      match matchHere (c :: rest) with
      | some m => some m
      | none => searchFrom (some c) rest
    else searchFrom (some c) rest

/-- `extract_postcode(address)` from src/main.py (identical in all three
scripts): the first regex match, or `None`.  Faithful to the source's
`re.search` exactly on ASCII addresses; on non-ASCII input the source's
Unicode-aware `\b` can reject a match this embedding accepts (next to a
non-ASCII word character), so claims about extraction carry the
`asciiOnly` hypothesis. -/
def extract_postcode (s : String) : Option String :=
  (searchFrom none s.data).map (fun l => String.mk l)

/-- Modelled from the spec: the UK postcode grammar exactly as the spec
words it — "one or two letters, one digit, an optional alphanumeric, a
space, a digit, then two letters drawn from a restricted alphabet" —
with no condition on the surrounding text.  Used to compare the spec's
grammar with the source regex, whose `\b` anchors the match at word
boundaries. -/
def isGrammarPostcode : List Char → Bool
  | [a, d, sp, i1, i2, i3] =>
    isUpper a && isDigitCh d && sp = (' ') && inwardOK i1 i2 i3
  | [a, b, c3, sp, i1, i2, i3] =>
    (isUpper a && isUpper b && isDigitCh c3 ||
      isUpper a && isDigitCh b && (isUpper c3 || isDigitCh c3)) &&
      sp = (' ') && inwardOK i1 i2 i3
  | [a, b, c3, c4, sp, i1, i2, i3] =>
    isUpper a && isUpper b && isDigitCh c3 && (isUpper c4 || isDigitCh c4) &&
      sp = (' ') && inwardOK i1 i2 i3
  | _ => false

/-- The leading word boundary for a match preceded by `pre` (with `prev`
the character just before `pre`, `none` at the string start): the
character immediately before the match — the last of `pre`, else `prev`
— is absent or a non-word character. -/
def boundaryBefore (prev : Option Char) : List Char → Bool
  | [] => prevOK prev
  | c :: pre => boundaryBefore (some c) pre

/-- `m` occurs in `l` as a postcode-grammar substring sitting at word
boundaries, with `pre` before it and `post` after it. -/
def ValidSplit (prev : Option Char) (l pre m post : List Char) : Prop :=
  l = pre ++ m ++ post ∧ isGrammarPostcode m = true ∧
    boundaryBefore prev pre = true ∧ okAfter post = true

/-! ## The batch loop of src/main.py -/

/-- The per-run observable state of the batch loop in `main()`: the
result pairs in input order, the cache, all provider queries in order,
all backoff sleeps, and the number of `time.sleep(RATE_LIMIT)` pacing
sleeps executed (one after each processed row). -/
structure BatchState where
  results : List CoordPair
  cache : Cache
  queries : List String
  sleeps : List Nat
  rateSleeps : Nat
deriving DecidableEq

/-- The `for index, row in df.iterrows()` loop of `main()` in
src/main.py: each address row (postcode column filled by
`extract_postcode`) goes through `geocode_with_fallback`, its pair is
appended, and the fixed `RATE_LIMIT` delay is slept once per row.
`Except.error` models the `TypeError` raised when
`geocode_with_fallback` produces no two-component pair. -/
def processAll (p : Provider) (mr : Int) (c : Cache) :
    List String → Except Unit BatchState
  | [] => .ok ⟨[], c, [], [], 0⟩
  | addr :: rest =>
    match geocode_with_fallback p mr c ⟨addr, extract_postcode addr⟩ with
    | none => .error ()
    | some fb =>
      match processAll p mr fb.cache rest with
      | .error e => .error e
      | .ok st =>
        .ok ⟨fb.ret :: st.results, st.cache, fb.queries ++ st.queries,
          fb.sleeps ++ st.sleeps, st.rateSleeps + 1⟩

/-- The run-fatal exceptions `main()` can raise after the loop. -/
inductive RunError where
  | typeError
  | unpackEmpty
  | divByZero
deriving DecidableEq

/-- The output of a completed run of `main()`: the rows augmented with
postcode and coordinates in input order, the count of rows with a
non-null latitude, the persisted cache, and the run's provider queries
and pacing-sleep count. -/
structure RunOutput where
  outputs : List (String × Option String × CoordPair)
  succeeded : Nat
  cache : Cache
  queries : List String
  rateSleeps : Nat
deriving DecidableEq

/-- `main()` from src/main.py on an already-loaded cache `c` and input
column `rows`: run the loop, then `df['lat'], df['lon'] = zip(*results)`
(a `ValueError` on an empty result list), then the summary statistics
(whose success-rate division would raise on a zero total). -/
def runMain (p : Provider) (mr : Int) (c : Cache) (rows : List String) :
    Except RunError RunOutput :=
  match processAll p mr c rows with
  | .error _ => .error .typeError
  | .ok st =>
    if st.results.isEmpty then .error .unpackEmpty
    else if rows.length = 0 then .error .divByZero
    else
      .ok ⟨List.zipWith (fun a r => (a, extract_postcode a, r)) rows st.results,
        st.results.countP (fun r => r.1.isSome), st.cache, st.queries,
        st.rateSleeps⟩

/-! ## Cache loading (src/main.py against the two model scripts) -/

/-- The state of the backing cache store when a run starts: absent file,
unreadable or undecodable file, or a well-formed file holding a cache. -/
inductive Store where
  | missing
  | corrupt
  | okStore (c : Cache)

/-- `load_cache()` from src/main.py: `except FileNotFoundError` returns
`{}` and `except Exception` prints and returns `{}`, so every store
state yields a cache (the function is total). -/
def load_cache : Store → Cache
  | .missing => []
  | .corrupt => []
  | .okStore c => c

/-- `load_cache()` from src/00.basic_model.py: only `FileNotFoundError`
is caught; a corrupt store's decode error propagates out
(`Except.error`), aborting the run at import time. -/
def basic_load_cache : Store → Except Unit Cache
  | .missing => .ok []
  | .corrupt => .error ()
  | .okStore c => .ok c

/-- The `joblib.load` guard of src/01.advanced_model.py (lines 33-36):
again only `FileNotFoundError` is caught. -/
def advanced_load_cache : Store → Except Unit Cache
  | .missing => .ok []
  | .corrupt => .error ()
  | .okStore c => .ok c

/-- `clean_cache()` from src/main.py: keep exactly the entries whose two
components are both non-`None`. -/
def clean_cache (c : Cache) : Cache :=
  c.filter (fun kv => kv.2.1.isSome && kv.2.2.isSome)

/-! ## The decorator stack of src/01.advanced_model.py

`geocode` there is wrapped, innermost first, by
`@on_exception(expo, ..., max_tries=MAX_RETRIES)` and then by
`@limits(calls=1, period=RATE_LIMIT)` with `@sleep_and_retry`: the
rate-limit gate is OUTSIDE the retry wrapper.  The function body itself
catches the retryable exception classes and returns `(None, None)`, so
the body never raises an exception the retry wrapper reacts to. -/

/-- Observable events of a decorated call: acquiring a rate-limiter slot
and attempting a provider call. -/
inductive Ev where
  | acquire
  | attempt
deriving DecidableEq

/-- The body of `geocode` in src/01.advanced_model.py: one provider
call; the internal `try/except` turns every retryable exception into
`(None, None)`, so the body always returns normally (`Except.ok`). -/
def advBody (p : Provider) (query : String) (attempt : Nat) :
    List Ev × Except Unit CoordPair :=
  match p query attempt with
  | .ok la lo => ([.attempt], .ok (some la, some lo))
  | .noMatch => ([.attempt], .ok (none, none))
  | .transient => ([.attempt], .ok (none, none))

/-- `backoff.on_exception(..., max_tries)`: run the wrapped call, and
while it raises, retry up to `maxTries` total attempts. -/
def onException (f : Nat → List Ev × Except Unit CoordPair) :
    Nat → Nat → List Ev × Except Unit CoordPair
  | 0, _ => ([], .error ())
  | t + 1, attempt =>
    match f attempt with
    | (evs, .ok r) => (evs, .ok r)
    | (evs, .error e) =>
      if t = 0 then (evs, .error e)
      else
        let g := onException f t (attempt + 1)
        (evs ++ g.1, g.2)

/-- The fully decorated `geocode` of src/01.advanced_model.py:
`sleep_and_retry(limits(on_exception(body)))` — one rate-limiter
acquisition, taken before the retry wrapper runs. -/
def adv_geocode (p : Provider) (maxTries : Nat) (query : String) :
    List Ev × Except Unit CoordPair :=
  let inner := onException (advBody p query) maxTries 0
  (Ev.acquire :: inner.1, inner.2)

/-- Adjacent-pair monotonicity of a delay sequence: each slept delay is
at least the previous one. -/
def nondec : List Nat → Bool
  | [] => true
  | [_] => true
  | x :: y :: rest => Nat.ble x y && nondec (y :: rest)

/-! ## Concrete providers used by counterexamples and witnesses -/

/-- A provider that finds `(1, 2)` for every query on every attempt. -/
def providerFound : Provider := fun _ _ => .ok 1 2

/-- A provider that cleanly reports no match for every query. -/
def providerNoMatch : Provider := fun _ _ => .noMatch

/-- A provider that raises a transient error on every attempt. -/
def providerTransient : Provider := fun _ _ => .transient

/-- Provider attempts recorded by a finished batch run (0 on abort). -/
def stQueryCount : Except Unit BatchState → Nat
  | .ok st => st.queries.length
  | .error _ => 0

/-- Rate-pacing sleeps recorded by a finished batch run (0 on abort). -/
def stRateSleeps : Except Unit BatchState → Nat
  | .ok st => st.rateSleeps
  | .error _ => 0

/-- Provider queries of a finished `main()` run (empty on abort). -/
def runQueries : Except RunError RunOutput → List String
  | .ok o => o.queries
  | .error _ => []

/-- Final cache of a finished `main()` run (empty on abort). -/
def runCache : Except RunError RunOutput → Cache
  | .ok o => o.cache
  | .error _ => []

/-! ## Cache lemmas -/

theorem cacheFind_insert_self (c : Cache) (k : String) (v : CoordPair) :
    cacheFind (cacheInsert c k v) k = some v := by
  induction c with
  | nil => simp [cacheInsert, cacheFind]
  | cons kv rest ih =>
    obtain ⟨k0, v0⟩ := kv
    by_cases h : k = k0 <;> simp [cacheInsert, cacheFind, h, ih]

theorem cacheFind_insert_ne (c : Cache) (k k' : String) (v : CoordPair)
    (h : ¬ k' = k) : cacheFind (cacheInsert c k v) k' = cacheFind c k' := by
  induction c with
  | nil => simp [cacheInsert, cacheFind, h]
  | cons kv rest ih =>
    obtain ⟨k0, v0⟩ := kv
    by_cases hk : k = k0
    · subst hk
      simp [cacheInsert, cacheFind, h]
    · by_cases hk' : k' = k0 <;> simp [cacheInsert, cacheFind, hk, hk', ih]

/-! ## Behavior of the retry loop -/

theorem geocodeAux_cache_pres (p : Provider) (mr : Int) (q k : String)
    (k' : String) (v' : CoordPair) :
    ∀ (r a : Nat) (c : Cache), cacheFind c k = none → cacheFind c k' = some v' →
      cacheFind ((geocodeAux p mr q k c a r).cache) k' = some v' := by
  intro r
  induction r with
  | zero => intro a c _ h'; simpa [geocodeAux] using h'
  | succ s ih =>
    intro a c h h'
    have hne : ¬ k' = k := by
      intro he; rw [he, h] at h'; exact Option.noConfusion h'
    cases hp : p q a with
    | ok lat lon =>
      simp [geocodeAux, hp, cacheFind_insert_ne c k k' _ hne, h']
    | noMatch => simpa [geocodeAux, hp] using h'
    | transient =>
      by_cases hl : (a : Int) = mr - 1
      · simpa [geocodeAux, hp, hl] using h'
      · simpa [geocodeAux, hp, hl] using ih (a + 1) c h h'

/-- Any cached key-value pair survives a `geocode` call. -/
theorem geocode_cache_pres (p : Provider) (mr : Int) (c : Cache) (k : String)
    (b : Bool) (k' : String) (v' : CoordPair) (h' : cacheFind c k' = some v') :
    cacheFind ((geocode p mr c k b).cache) k' = some v' := by
  unfold geocode
  cases hf : cacheFind c k with
  | some v => simpa using h'
  | none => exact geocodeAux_cache_pres p mr _ k k' v' mr.toNat 0 c hf h'

theorem geocodeAux_find_key (p : Provider) (mr : Int) (q k : String) :
    ∀ (r a : Nat) (c : Cache), cacheFind c k = none →
      cacheFind ((geocodeAux p mr q k c a r).cache) k =
        match (geocodeAux p mr q k c a r).ret with
        | some (some la, some lo) => some (some la, some lo)
        | _ => none := by
  intro r
  induction r with
  | zero => intro a c h; simpa [geocodeAux] using h
  | succ s ih =>
    intro a c h
    cases hp : p q a with
    | ok lat lon => simp [geocodeAux, hp, cacheFind_insert_self]
    | noMatch => simpa [geocodeAux, hp] using h
    | transient =>
      by_cases hl : (a : Int) = mr - 1
      · simpa [geocodeAux, hp, hl] using h
      · simpa [geocodeAux, hp, hl] using ih (a + 1) c h

/-- Claim C2 (amended): for every lookup key not already present in the
cache, after `geocode` in src/main.py queries the provider the result is
stored under that exact key precisely when the lookup produced a found
coordinate pair; a clean no-match and a retry-exhausted lookup return
`(None, None)` without writing the cache. -/
theorem C2_geocode_caches_iff_found (p : Provider) (mr : Int) (c : Cache)
    (k : String) (b : Bool) (h : cacheFind c k = none) :
    cacheFind ((geocode p mr c k b).cache) k =
      match (geocode p mr c k b).ret with
      | some (some la, some lo) => some (some la, some lo)
      | _ => none := by
  unfold geocode
  rw [h]
  exact geocodeAux_find_key p mr _ k mr.toNat 0 c h

/-- Claim C2, counterexample to the claim as stated: the provider is
queried for the uncached key `"EC1A 1BB"` and cleanly reports no match,
yet afterwards nothing is stored under that key — the absent result is
not cached by src/main.py. -/
theorem C2_not_cached_on_noMatch :
    (geocode providerNoMatch 3 [] ("EC1A 1BB") true).queries =
      [("EC1A 1BB, UK")] ∧
    (geocode providerNoMatch 3 [] ("EC1A 1BB") true).ret = some (none, none) ∧
    cacheFind ((geocode providerNoMatch 3 [] ("EC1A 1BB") true).cache)
      ("EC1A 1BB") = none := by
  decide

/-- Claim C2, witness: a found result for an uncached key is stored. -/
theorem C2_geocode_caches_iff_found_w :
    cacheFind ((geocode providerFound 3 [] ("X") true).cache) ("X") =
      match (geocode providerFound 3 [] ("X") true).ret with
      | some (some la, some lo) => some (some la, some lo)
      | _ => none :=
  C2_geocode_caches_iff_found providerFound 3 [] ("X") true rfl

/-- Claim C7: `clean_cache` keeps exactly the entries whose latitude and
longitude are both present — it is an order-preserving sublist; an entry
survives it precisely when both components are non-`None` (a pair with
coordinate `0.0` has both components present and is retained). -/
theorem C7_clean_cache_exact (c : Cache) :
    List.Sublist (clean_cache c) c ∧
      ∀ k v, ((k, v) ∈ clean_cache c ↔
        ((k, v) ∈ c ∧ v.1.isSome = true ∧ v.2.isSome = true)) := by
  refine ⟨List.filter_sublist c, fun k v => ?_⟩
  simp [clean_cache, List.mem_filter, and_assoc]

/-- Claim C9: on an empty input batch, `main()` raises — the result
columns are assembled by unpacking `zip(*results)`, which yields nothing
for the two targets — instead of returning an empty output with a
zero-count summary (the success-rate division by the zero total sits on
the same path). -/
theorem C9_empty_batch_raises (p : Provider) (mr : Int) (c : Cache) :
    runMain p mr c [] = .error RunError.unpackEmpty := rfl

/-- Claim C6, counterexample to the claim as stated: in
src/00.basic_model.py only `FileNotFoundError` is caught, so `load()` on
a corrupt (undecodable) store raises and aborts the run. -/
theorem C6_basic_corrupt_aborts :
    basic_load_cache Store.corrupt = Except.error () := rfl

/-- Claim C6 (amended): `load_cache` of src/main.py returns an empty
cache on a missing or corrupt store (and the stored cache otherwise), so
loading never aborts that run; in src/00.basic_model.py and
src/01.advanced_model.py only the missing-store case yields an empty
cache, while a corrupt store raises out of `load`. -/
theorem C6_load_variants :
    load_cache Store.missing = [] ∧ load_cache Store.corrupt = [] ∧
      (∀ c, load_cache (Store.okStore c) = c) ∧
      basic_load_cache Store.missing = Except.ok [] ∧
      basic_load_cache Store.corrupt = Except.error () ∧
      advanced_load_cache Store.missing = Except.ok [] ∧
      advanced_load_cache Store.corrupt = Except.error () :=
  ⟨rfl, rfl, fun _ => rfl, rfl, rfl, rfl, rfl⟩

/-! ## Retry exhaustion (claim C4) -/

/-- One-step unfolding of the retry loop. -/
theorem geocodeAux_succ (p : Provider) (mr : Int) (q k : String) (c : Cache)
    (a r : Nat) :
    geocodeAux p mr q k c a (r + 1) =
      match p q a with
      | .ok lat lon =>
        ⟨some (some lat, some lon), cacheInsert c k (some lat, some lon),
          [q], [], false⟩
      | .noMatch => ⟨some (none, none), c, [q], [], false⟩
      | .transient =>
        if (a : Int) = mr - 1 then ⟨some (none, none), c, [q], [], true⟩
        else
          let g := geocodeAux p mr q k c (a + 1) r
          ⟨g.ret, g.cache, q :: g.queries, 2 ^ a :: g.sleeps, g.warned⟩ := rfl

theorem geocodeAux_allTransient (p : Provider) (mr : Int) (q k : String)
    (c : Cache) (hp : ∀ qq a, p qq a = ProviderResponse.transient) :
    ∀ (r a : Nat), (a : Int) + r = mr → 1 ≤ r →
      geocodeAux p mr q k c a r =
        ⟨some (none, none), c, List.replicate r q,
          (List.range' a (r - 1)).map (fun i => 2 ^ i), true⟩ := by
  intro r
  induction r with
  | zero => intro a _ h1; exact absurd h1 (by omega)
  | succ s ih =>
    intro a hEq _
    rw [geocodeAux_succ]
    simp only [hp]
    by_cases hl : (a : Int) = mr - 1
    · have hs : s = 0 := by omega
      subst hs
      rw [if_pos hl]
      simp
    · have hs : 1 ≤ s := by omega
      have hrec := ih (a + 1) (by push_cast; push_cast at hEq; omega) hs
      obtain ⟨t, rfl⟩ : ∃ t, s = t + 1 := ⟨s - 1, by omega⟩
      rw [if_neg hl]
      simp only [hrec]
      simp [List.replicate_succ, List.range'_succ]

theorem nondec_pow : ∀ (n a : Nat),
    nondec ((List.range' a n).map (fun i => 2 ^ i)) = true := by
  intro n
  induction n with
  | zero => intro a; rfl
  | succ t ih =>
    intro a
    cases t with
    | zero => simp [List.range'_succ, nondec]
    | succ u =>
      rw [List.range'_succ]
      have h2 : List.range' (a + 1) (u + 1) = (a + 1) :: List.range' (a + 1 + 1) u := by
        rw [List.range'_succ]
      rw [h2, List.map_cons, List.map_cons]
      show (Nat.ble (2 ^ a) (2 ^ (a + 1)) &&
        nondec (2 ^ (a + 1) :: List.map (fun i => 2 ^ i)
          (List.range' (a + 1 + 1) u))) = true
      rw [Bool.and_eq_true]
      constructor
      · have hle : (2 : Nat) ^ a ≤ 2 ^ (a + 1) :=
          Nat.pow_le_pow_right (by omega) (by omega)
        simpa [Nat.ble_eq] using hle
      · have hrec := ih (a + 1)
        rw [h2, List.map_cons] at hrec
        exact hrec

/-- Claim C4: against a provider that raises a transient error on every
attempt, an uncached `geocode` lookup makes exactly `MAX_RETRIES`
provider attempts, sleeps the doubling backoff delays
`2^0, 2^1, ...` (each at least the previous one) between attempts, logs
the warning, and returns the absent pair `(None, None)` — a normal
return, never an exception escaping into the batch — leaving the cache
unchanged. -/
theorem C4_retry_exhaustion (p : Provider) (mr : Int) (c : Cache) (k : String)
    (b : Bool) (hp : ∀ q a, p q a = ProviderResponse.transient)
    (hmr : 1 ≤ mr) (hc : cacheFind c k = none) :
    (geocode p mr c k b).queries.length = mr.toNat ∧
      (geocode p mr c k b).ret = some (none, none) ∧
      (geocode p mr c k b).warned = true ∧
      (geocode p mr c k b).sleeps =
        (List.range (mr.toNat - 1)).map (fun i => 2 ^ i) ∧
      nondec (geocode p mr c k b).sleeps = true ∧
      (geocode p mr c k b).cache = c := by
  have hinv : ((0 : Nat) : Int) + mr.toNat = mr := by omega
  have h := geocodeAux_allTransient p mr (queryOf b k) k c hp mr.toNat 0 hinv
    (by omega)
  unfold geocode
  rw [hc, h]
  refine ⟨by simp, rfl, rfl, by rw [List.range_eq_range'], ?_, rfl⟩
  exact nondec_pow _ 0

/-- Claim C4, witness at `MAX_RETRIES = 3`. -/
theorem C4_retry_exhaustion_w :
    (geocode providerTransient 3 [] ("SW1A 1AA") true).queries.length =
      (3 : Int).toNat ∧
      (geocode providerTransient 3 [] ("SW1A 1AA") true).ret =
        some (none, none) ∧
      (geocode providerTransient 3 [] ("SW1A 1AA") true).warned = true ∧
      (geocode providerTransient 3 [] ("SW1A 1AA") true).sleeps =
        (List.range ((3 : Int).toNat - 1)).map (fun i => 2 ^ i) ∧
      nondec (geocode providerTransient 3 [] ("SW1A 1AA") true).sleeps = true ∧
      (geocode providerTransient 3 [] ("SW1A 1AA") true).cache = [] :=
  C4_retry_exhaustion providerTransient 3 [] ("SW1A 1AA") true
    (fun _ _ => rfl) (by decide) rfl

/-! ## The MAX_RETRIES precondition (claim C10) -/

theorem geocodeAux_ret_isSome (p : Provider) (mr : Int) (q k : String)
    (c : Cache) :
    ∀ (r a : Nat), (a : Int) + r = mr → 1 ≤ r →
      ((geocodeAux p mr q k c a r).ret).isSome = true := by
  intro r
  induction r with
  | zero => intro a _ h1; exact absurd h1 (by omega)
  | succ s ih =>
    intro a hEq _
    cases hp : p q a with
    | ok lat lon => simp [geocodeAux, hp]
    | noMatch => simp [geocodeAux, hp]
    | transient =>
      by_cases hl : (a : Int) = mr - 1
      · simp [geocodeAux, hp, hl]
      · have hs : 1 ≤ s := by omega
        have := ih (a + 1) (by push_cast; push_cast at hEq; omega) hs
        simpa [geocodeAux, hp, hl] using this

/-- Claim C10: `geocode` yields a two-component pair on every path
exactly under the precondition `MAX_RETRIES ≥ 1`.  With the configured
maximum at 0 or below, `range(MAX_RETRIES)` is empty, `geocode` falls
off the loop and returns a bare `None` for any uncached key, and the
`lat, lon = geocode(row['postcode'])` unpacking inside
`geocode_with_fallback` then raises (modelled `none`). -/
theorem C10_maxretries_guard :
    (∀ (p : Provider) (mr : Int) (c : Cache) (k : String) (b : Bool),
      1 ≤ mr → ((geocode p mr c k b).ret).isSome = true) ∧
    (∀ (p : Provider) (mr : Int) (c : Cache) (k : String) (b : Bool),
      mr ≤ 0 → cacheFind c k = none → (geocode p mr c k b).ret = none) ∧
    (∀ (p : Provider) (mr : Int) (c : Cache) (row : Row) (pc : String),
      mr ≤ 0 → row.postcode = some pc → ¬ pc = ("") →
      cacheFind c pc = none → geocode_with_fallback p mr c row = none) := by
  have hzero : ∀ (p : Provider) (mr : Int) (c : Cache) (k : String) (b : Bool),
      mr ≤ 0 → cacheFind c k = none → (geocode p mr c k b).ret = none := by
    intro p mr c k b hmr hc
    have h0 : mr.toNat = 0 := by omega
    unfold geocode
    rw [hc, h0]
    rfl
  refine ⟨?_, hzero, ?_⟩
  · intro p mr c k b hmr
    unfold geocode
    cases hf : cacheFind c k with
    | some v => rfl
    | none =>
      exact geocodeAux_ret_isSome p mr _ k c mr.toNat 0 (by omega) (by omega)
  · intro p mr c row pc hmr hrow hpc hc
    have hret := hzero p mr c pc true hmr hc
    simp [geocode_with_fallback, hrow, hpc, hret]

/-- Claim C10, witness: with one retry every lookup yields a pair; with
zero retries an uncached lookup yields a bare `None` and the fallback's
unpacking raises. -/
theorem C10_maxretries_guard_w :
    ((geocode providerFound 1 [] ("X") true).ret).isSome = true ∧
      (geocode providerFound 0 [] ("X") true).ret = none ∧
      geocode_with_fallback providerFound 0 []
        ⟨("10 Downing St"), some ("SW1A 1AA")⟩ = none :=
  ⟨C10_maxretries_guard.1 providerFound 1 [] ("X") true (by decide),
    C10_maxretries_guard.2.1 providerFound 0 [] ("X") true (by decide) rfl,
    C10_maxretries_guard.2.2 providerFound 0 []
      ⟨("10 Downing St"), some ("SW1A 1AA")⟩ ("SW1A 1AA") (by decide) rfl
      (by decide) rfl⟩

/-! ## Fallback ordering (claim C1) -/

/-- Claim C1 (amended): when the postcode lookup yields a pair whose two
components are both truthy in Python's sense (present and nonzero),
`geocode_with_fallback` returns exactly that pair, with the cache,
provider queries, sleeps and warning state being those of the postcode
lookup alone — the raw-address lookup contributes nothing.  Whenever
either component is `None` or `0.0` (in particular for the absent pair),
the raw address is looked up from the post-postcode-lookup cache and its
result, possibly absent, is returned. -/
theorem C1_fallback_order (p : Provider) (mr : Int) (c : Cache) (row : Row)
    (pc : String) (hrow : row.postcode = some pc) (hpc : ¬ pc = ("")) :
    ∀ lat lon, (geocode p mr c pc true).ret = some (lat, lon) →
      ((truthyQ lat && truthyQ lon) = true →
        geocode_with_fallback p mr c row =
          some ⟨(lat, lon), (geocode p mr c pc true).cache,
            (geocode p mr c pc true).queries, (geocode p mr c pc true).sleeps,
            (geocode p mr c pc true).warned⟩) ∧
      ((truthyQ lat && truthyQ lon) = false →
        geocode_with_fallback p mr c row =
          match rawLookup p mr (geocode p mr c pc true).cache row.address with
          | none => none
          | some f2 =>
            some ⟨f2.ret, f2.cache,
              (geocode p mr c pc true).queries ++ f2.queries,
              (geocode p mr c pc true).sleeps ++ f2.sleeps,
              ((geocode p mr c pc true).warned || f2.warned)⟩) := by
  intro lat lon hret
  constructor
  · intro ht
    simp [geocode_with_fallback, hrow, hpc, hret, ht]
  · intro hf
    simp only [geocode_with_fallback, hrow, if_neg hpc, hret, hf]
    simp

/-- The provider of the C1 counterexample: the postcode query resolves
to the found-but-zero-latitude pair `(0, 5)`, anything else to `(7, 8)`. -/
def provC1 : Provider :=
  fun q _ => if q = ("SW1A 1AA, UK") then .ok 0 5 else .ok 7 8

/-- The address record of the C1 counterexample. -/
def rowC1 : Row := ⟨("10 Downing St"), some ("SW1A 1AA")⟩

/-- Claim C1, counterexample to the claim as stated: the postcode lookup
yields the non-absent pair `(0, 5)` (both components present), yet
`geocode_with_fallback` does not return it — Python's `if lat and lon`
treats the zero coordinate as falsy, the raw-address provider call is
made after all, and its pair `(7, 8)` is returned. -/
theorem C1_zero_coordinate_falls_through :
    (geocode provC1 3 [] ("SW1A 1AA") true).ret = some (some 0, some 5) ∧
      (geocode_with_fallback provC1 3 [] rowC1).map (fun f => f.ret) =
        some (some 7, some 8) ∧
      (geocode_with_fallback provC1 3 [] rowC1).map (fun f => f.queries) =
        some [("SW1A 1AA, UK"), ("10 Downing St")] ∧
      ¬ ((some 7, some 8) : CoordPair) = (some 0, some 5) := by
  decide

/-- Claim C1, witness: a postcode pair with both components truthy is
returned as is, the raw address never queried. -/
theorem C1_fallback_order_w :
    geocode_with_fallback providerFound 3 [] rowC1 =
      some ⟨(some 1, some 2),
        (geocode providerFound 3 [] ("SW1A 1AA") true).cache,
        (geocode providerFound 3 [] ("SW1A 1AA") true).queries,
        (geocode providerFound 3 [] ("SW1A 1AA") true).sleeps,
        (geocode providerFound 3 [] ("SW1A 1AA") true).warned⟩ :=
  (C1_fallback_order providerFound 3 [] rowC1 ("SW1A 1AA") rfl (by decide)
    (some 1) (some 2) rfl).1 (by decide)

/-! ## Rate pacing (claim C5) -/

/-- Claim C5 (amended): in src/main.py the only rate pacing is the fixed
`time.sleep(RATE_LIMIT)` executed once per address row after its
resolution completes — a finished batch records exactly one pacing sleep
per row, however many provider attempts (fallback and retries, which
incur only the backoff sleeps) the row needed.  In
src/01.advanced_model.py the rate-limit decorator wraps outside the
retry decorator, and the body's internal exception handler prevents
retries entirely, so each decorated call records exactly one slot
acquisition followed by one provider attempt. -/
theorem C5_rate_pacing :
    (∀ (p : Provider) (mr : Int) (c : Cache) (rows : List String)
      (st : BatchState), processAll p mr c rows = Except.ok st →
        st.rateSleeps = rows.length) ∧
    (∀ (p : Provider) (mt : Nat) (q : String), 1 ≤ mt →
      (adv_geocode p mt q).1 = [Ev.acquire, Ev.attempt]) := by
  constructor
  · intro p mr c rows
    induction rows generalizing c with
    | nil => intro st h; cases h; rfl
    | cons addr rest ih =>
      intro st h
      simp only [processAll] at h
      cases hfb : geocode_with_fallback p mr c ⟨addr, extract_postcode addr⟩ with
      | none => rw [hfb] at h; exact Except.noConfusion h
      | some fb =>
        rw [hfb] at h
        dsimp only at h
        cases hrest : processAll p mr fb.cache rest with
        | error e => rw [hrest] at h; exact Except.noConfusion h
        | ok st' =>
          rw [hrest] at h
          dsimp only at h
          cases h
          simpa [List.length_cons] using ih fb.cache st' hrest
  · intro p mt q hmt
    obtain ⟨t, rfl⟩ : ∃ t, mt = t + 1 := ⟨mt - 1, by omega⟩
    unfold adv_geocode onException
    cases hp : p q 0 <;> simp [advBody, hp]

/-- Claim C5, counterexample to the claim as stated: a one-row batch
whose provider raises transient errors on both configured attempts makes
4 provider call attempts (two for the postcode, two for the raw-address
fallback) but acquires the rate-pacing sleep exactly once — a slot is
not acquired before every attempt, and retries consume no rate budget. -/
theorem C5_attempts_exceed_slots :
    stQueryCount (processAll providerTransient 2 [] [("SW1A 1AA")]) = 4 ∧
      stRateSleeps (processAll providerTransient 2 [] [("SW1A 1AA")]) = 1 ∧
      ¬ (4 : Nat) ≤ 1 := by
  decide

/-! ## Warm-cache idempotence (claim C3) -/

/-- A provider that answers every query on every attempt with a found
location. -/
def AllFound (p : Provider) : Prop :=
  ∀ q a, ∃ la lo, p q a = ProviderResponse.ok la lo

/-- A cache hit leaves everything untouched. -/
theorem geocode_hit (p : Provider) (mr : Int) (c : Cache) (k : String)
    (b : Bool) (v : CoordPair) (h : cacheFind c k = some v) :
    geocode p mr c k b = ⟨some v, c, [], [], false⟩ := by
  unfold geocode
  rw [h]

/-- Against an always-found provider, an uncached lookup succeeds on the
first attempt and stores its pair. -/
theorem geocode_found_miss (p : Provider) (mr : Int) (c : Cache) (k : String)
    (b : Bool) (hAF : AllFound p) (hmr : 1 ≤ mr) (h : cacheFind c k = none) :
    ∃ la lo, geocode p mr c k b =
      ⟨some (some la, some lo), cacheInsert c k (some la, some lo),
        [queryOf b k], [], false⟩ := by
  obtain ⟨la, lo, hok⟩ := hAF (queryOf b k) 0
  refine ⟨la, lo, ?_⟩
  unfold geocode
  rw [h]
  obtain ⟨s, hs⟩ : ∃ s, mr.toNat = s + 1 := ⟨mr.toNat - 1, by omega⟩
  rw [hs, geocodeAux_succ, hok]

/-- Against an always-found provider, `geocode` returns a pair and that
pair is in the cache under the looked-up key afterwards. -/
theorem geocode_records (p : Provider) (mr : Int) (c : Cache) (k : String)
    (b : Bool) (hAF : AllFound p) (hmr : 1 ≤ mr) :
    ∃ v, (geocode p mr c k b).ret = some v ∧
      cacheFind ((geocode p mr c k b).cache) k = some v := by
  cases h : cacheFind c k with
  | some v => rw [geocode_hit p mr c k b v h]; exact ⟨v, rfl, h⟩
  | none =>
    obtain ⟨la, lo, hg⟩ := geocode_found_miss p mr c k b hAF hmr h
    rw [hg]
    exact ⟨(some la, some lo), rfl, cacheFind_insert_self c k _⟩

/-- A raw-address lookup preserves every cached pair. -/
theorem rawLookup_cache_pres (p : Provider) (mr : Int) (c : Cache)
    (addr : String) (f2 : FBRes) (h : rawLookup p mr c addr = some f2)
    (k : String) (v : CoordPair) (hk : cacheFind c k = some v) :
    cacheFind f2.cache k = some v := by
  unfold rawLookup at h
  cases hret : (geocode p mr c addr false).ret with
  | none => rw [hret] at h; exact Option.noConfusion h
  | some pr =>
    rw [hret] at h
    cases h
    exact geocode_cache_pres p mr c addr false k v hk

/-- Against an always-found provider, the raw-address lookup succeeds,
records its pair under the raw-address key, and preserves the cache. -/
theorem rawLookup_records (p : Provider) (mr : Int) (c : Cache)
    (addr : String) (hAF : AllFound p) (hmr : 1 ≤ mr) :
    ∃ f2, rawLookup p mr c addr = some f2 ∧
      cacheFind f2.cache addr = some f2.ret ∧
      (∀ k v, cacheFind c k = some v → cacheFind f2.cache k = some v) := by
  obtain ⟨v, hret, hkey⟩ := geocode_records p mr c addr false hAF hmr
  refine ⟨⟨v, (geocode p mr c addr false).cache,
    (geocode p mr c addr false).queries, (geocode p mr c addr false).sleeps,
    (geocode p mr c addr false).warned⟩, ?_, hkey, ?_⟩
  · unfold rawLookup
    rw [hret]
  · intro k w hw
    exact geocode_cache_pres p mr c addr false k w hw

/-- `geocode_with_fallback` preserves every cached pair. -/
theorem fallback_cache_pres (p : Provider) (mr : Int) (c : Cache) (row : Row)
    (fb : FBRes) (h : geocode_with_fallback p mr c row = some fb) :
    ∀ k v, cacheFind c k = some v → cacheFind fb.cache k = some v := by
  intro k v hk
  unfold geocode_with_fallback at h
  cases hrow : row.postcode with
  | none =>
    rw [hrow] at h
    exact rawLookup_cache_pres p mr c row.address fb h k v hk
  | some pc =>
    rw [hrow] at h
    dsimp only at h
    by_cases hpc : pc = ("")
    · rw [if_pos hpc] at h
      exact rawLookup_cache_pres p mr c row.address fb h k v hk
    · rw [if_neg hpc] at h
      cases hret : (geocode p mr c pc true).ret with
      | none => rw [hret] at h; exact Option.noConfusion h
      | some pr =>
        obtain ⟨lat, lon⟩ := pr
        rw [hret] at h
        dsimp only at h
        have hk1 : cacheFind ((geocode p mr c pc true).cache) k = some v :=
          geocode_cache_pres p mr c pc true k v hk
        by_cases ht : (truthyQ lat && truthyQ lon) = true
        · rw [if_pos ht] at h
          cases h
          exact hk1
        · rw [if_neg ht] at h
          cases h2 : rawLookup p mr ((geocode p mr c pc true).cache)
              row.address with
          | none => rw [h2] at h; exact Option.noConfusion h
          | some f2 =>
            rw [h2] at h
            dsimp only at h
            cases h
            exact rawLookup_cache_pres p mr _ row.address f2 h2 k v hk1

/-- Replaying `geocode_with_fallback` from any cache that contains
everything its first run left behind returns the same pair, makes no
provider query, sleeps nothing, and leaves that cache unchanged
(always-found provider, at least one configured retry). -/
theorem fallback_replay (p : Provider) (mr : Int) (hmr : 1 ≤ mr)
    (hAF : AllFound p) (c : Cache) (row : Row) (fb : FBRes)
    (hfb : geocode_with_fallback p mr c row = some fb) :
    ∀ c', (∀ k v, cacheFind fb.cache k = some v → cacheFind c' k = some v) →
      geocode_with_fallback p mr c' row = some ⟨fb.ret, c', [], [], false⟩ := by
  intro c' hsub
  have hraw : ∀ (c0 : Cache) (f : FBRes),
      rawLookup p mr c0 row.address = some f →
      (∀ k v, cacheFind f.cache k = some v → cacheFind c' k = some v) →
      rawLookup p mr c' row.address = some ⟨f.ret, c', [], [], false⟩ := by
    intro c0 f h0 hsub0
    obtain ⟨f2, hf2, hkey, _⟩ := rawLookup_records p mr c0 row.address hAF hmr
    rw [h0] at hf2
    cases hf2
    have hc' : cacheFind c' row.address = some f.ret := hsub0 _ _ hkey
    unfold rawLookup
    rw [geocode_hit p mr c' row.address false f.ret hc']
  unfold geocode_with_fallback at hfb ⊢
  cases hrow : row.postcode with
  | none =>
    try rw [hrow] at hfb
    exact hraw c fb hfb hsub
  | some pc =>
    try rw [hrow] at hfb
    try rw [hrow]
    dsimp only at hfb ⊢
    by_cases hpc : pc = ("")
    · rw [if_pos hpc] at hfb ⊢
      exact hraw c fb hfb hsub
    · rw [if_neg hpc] at hfb ⊢
      obtain ⟨v, hret, hkey⟩ := geocode_records p mr c pc true hAF hmr
      obtain ⟨lat, lon⟩ := v
      rw [hret] at hfb
      dsimp only at hfb
      by_cases ht : (truthyQ lat && truthyQ lon) = true
      · rw [if_pos ht] at hfb
        cases hfb
        have hc' : cacheFind c' pc = some (lat, lon) := hsub _ _ hkey
        rw [geocode_hit p mr c' pc true (lat, lon) hc']
        dsimp only
        rw [if_pos ht]
      · rw [if_neg ht] at hfb
        cases h2 : rawLookup p mr ((geocode p mr c pc true).cache)
            row.address with
        | none => rw [h2] at hfb; exact Option.noConfusion hfb
        | some f2 =>
          rw [h2] at hfb
          dsimp only at hfb
          cases hfb
          have hkey2 : cacheFind f2.cache pc = some (lat, lon) :=
            rawLookup_cache_pres p mr _ row.address f2 h2 pc (lat, lon) hkey
          have hc' : cacheFind c' pc = some (lat, lon) := hsub _ _ hkey2
          rw [geocode_hit p mr c' pc true (lat, lon) hc']
          dsimp only
          rw [if_neg ht]
          have hr := hraw ((geocode p mr c pc true).cache) f2 h2
            (fun k w hw => hsub k w hw)
          rw [hr]
          simp

/-- Claim C5, witness: one pacing sleep per processed row, and one
acquisition with one attempt per decorated advanced-model call. -/
theorem C5_rate_pacing_w :
    (⟨[(some 1, some 2)], [(("foo"), (some 1, some 2))], [("foo")], [], 1⟩ :
      BatchState).rateSleeps = [("foo")].length ∧
      (adv_geocode providerFound 3 ("q")).1 = [Ev.acquire, Ev.attempt] :=
  ⟨C5_rate_pacing.1 providerFound 1 [] [("foo")]
      ⟨[(some 1, some 2)], [(("foo"), (some 1, some 2))], [("foo")], [], 1⟩ rfl,
    C5_rate_pacing.2 providerFound 3 ("q") (by decide)⟩

/-- The batch loop preserves every cached pair. -/
theorem processAll_mono (p : Provider) (mr : Int) :
    ∀ (rows : List String) (c : Cache) (st : BatchState),
      processAll p mr c rows = Except.ok st →
      ∀ k v, cacheFind c k = some v → cacheFind st.cache k = some v := by
  intro rows
  induction rows with
  | nil => intro c st h k v hk; cases h; exact hk
  | cons addr rest ih =>
    intro c st h k v hk
    simp only [processAll] at h
    cases hfb : geocode_with_fallback p mr c ⟨addr, extract_postcode addr⟩ with
    | none => rw [hfb] at h; exact Except.noConfusion h
    | some fb =>
      rw [hfb] at h
      dsimp only at h
      cases hrest : processAll p mr fb.cache rest with
      | error e => rw [hrest] at h; exact Except.noConfusion h
      | ok st' =>
        rw [hrest] at h
        dsimp only at h
        cases h
        exact ih fb.cache st' hrest k v
          (fallback_cache_pres p mr c _ fb hfb k v hk)

/-- Replaying a finished batch from its own final cache reproduces the
same results and pacing sleeps with no provider query and no backoff
sleep, and leaves the cache unchanged (always-found provider, at least
one configured retry). -/
theorem processAll_replay (p : Provider) (mr : Int) (hmr : 1 ≤ mr)
    (hAF : AllFound p) :
    ∀ (rows : List String) (c : Cache) (st : BatchState),
      processAll p mr c rows = Except.ok st →
      processAll p mr st.cache rows =
        Except.ok ⟨st.results, st.cache, [], [], st.rateSleeps⟩ := by
  intro rows
  induction rows with
  | nil => intro c st h; cases h; rfl
  | cons addr rest ih =>
    intro c st h
    simp only [processAll] at h
    cases hfb : geocode_with_fallback p mr c ⟨addr, extract_postcode addr⟩ with
    | none => rw [hfb] at h; exact Except.noConfusion h
    | some fb =>
      rw [hfb] at h
      dsimp only at h
      cases hrest : processAll p mr fb.cache rest with
      | error e => rw [hrest] at h; exact Except.noConfusion h
      | ok st' =>
        rw [hrest] at h
        dsimp only at h
        cases h
        have hsub : ∀ k v, cacheFind fb.cache k = some v →
            cacheFind st'.cache k = some v :=
          fun k v hv => processAll_mono p mr rest fb.cache st' hrest k v hv
        have hf' := fallback_replay p mr hmr hAF c
          ⟨addr, extract_postcode addr⟩ fb hfb st'.cache hsub
        have hr' := ih fb.cache st' hrest
        dsimp only
        simp only [processAll, hf', hr']
        simp

/-- Claim C3 (amended): with a deterministic provider that finds every
query (and at least one configured retry), running the batch a second
time from the first run's final cache produces identical outputs and
summary counts, the same cache, the same per-row pacing sleeps, and
makes zero provider calls.  (As stated the claim fails on both counts:
src/main.py does not cache not-found results, so a second run re-queries
them, and a pair cached by a later row under a key shared with an
earlier row's lookup can change that earlier row's second-run output.) -/
theorem C3_warm_cache_idempotent (p : Provider) (mr : Int) (c : Cache)
    (rows : List String) (out1 : RunOutput) (hmr : 1 ≤ mr) (hAF : AllFound p)
    (h1 : runMain p mr c rows = Except.ok out1) :
    runMain p mr out1.cache rows =
      Except.ok ⟨out1.outputs, out1.succeeded, out1.cache, [],
        out1.rateSleeps⟩ := by
  unfold runMain at h1
  cases hPA : processAll p mr c rows with
  | error e => rw [hPA] at h1; exact Except.noConfusion h1
  | ok st =>
    rw [hPA] at h1
    dsimp only at h1
    by_cases hE : st.results.isEmpty
    · rw [if_pos hE] at h1; exact Except.noConfusion h1
    · rw [if_neg hE] at h1
      by_cases hL : rows.length = 0
      · rw [if_pos hL] at h1; exact Except.noConfusion h1
      · rw [if_neg hL] at h1
        cases h1
        have hrep := processAll_replay p mr hmr hAF rows c st hPA
        dsimp only
        unfold runMain
        rw [hrep]
        dsimp only
        rw [if_neg hE, if_neg hL]

/-- The provider of the second C3 counterexample scenario: the bare
query `"SW1A 1AA"` resolves, every other query (including
`"SW1A 1AA, UK"`) is a clean no-match. -/
def provC3 : Provider :=
  fun q _ => if q = ("SW1A 1AA") then .ok 5 6 else .noMatch

/-- The batch of the second C3 counterexample scenario: the second row's
raw address equals the first row's extracted postcode token. -/
def rowsC3 : List String := [("Flat 1, SW1A 1AA"), ("SW1A 1AA")]

/-- Result rows of a finished `main()` run (empty on abort). -/
def runOutputs : Except RunError RunOutput →
    List (String × Option String × CoordPair)
  | .ok o => o.outputs
  | .error _ => []

/-- Claim C3, counterexample to the claim as stated, refuting both
halves.  Zero calls: a one-row batch whose only address resolves to
not-found is re-queried on the second run — the warm cache holds nothing
for it, so the second run makes one provider call, not zero.  Identical
output: in `rowsC3` the second row's raw-address lookup caches a pair
under the key `"SW1A 1AA"`, which is also the first row's postcode key;
on the second run the first row's postcode lookup hits that entry and
its output changes from the absent pair to `(5, 6)`. -/
theorem C3_second_run_requeries :
    (runQueries (runMain providerNoMatch 3
      (runCache (runMain providerNoMatch 3 [] [("foo")])) [("foo")]) =
      [("foo")] ∧
    ¬ ([("foo")] : List String) = []) ∧
    (runOutputs (runMain provC3 3 [] rowsC3) =
      [(("Flat 1, SW1A 1AA"), some ("SW1A 1AA"), (none, none)),
       (("SW1A 1AA"), some ("SW1A 1AA"), (some 5, some 6))] ∧
    runOutputs (runMain provC3 3
        (runCache (runMain provC3 3 [] rowsC3)) rowsC3) =
      [(("Flat 1, SW1A 1AA"), some ("SW1A 1AA"), (some 5, some 6)),
       (("SW1A 1AA"), some ("SW1A 1AA"), (some 5, some 6))] ∧
    ¬ runOutputs (runMain provC3 3
        (runCache (runMain provC3 3 [] rowsC3)) rowsC3) =
      runOutputs (runMain provC3 3 [] rowsC3)) :=
  ⟨⟨by decide, by decide⟩, by decide, by decide, by decide⟩

/-! ## Regex correctness (claim C8) -/

theorem digit_not_upper (c : Char) (h : isDigitCh c = true) :
    isUpper c = false := by
  cases hu : isUpper c with
  | false => rfl
  | true =>
    exfalso
    simp only [isDigitCh, Bool.and_eq_true, decide_eq_true_eq] at h
    simp only [isUpper, Bool.and_eq_true, decide_eq_true_eq] at hu
    omega

theorem matchEnd_sound (l m : List Char) (h : matchEnd l = some m) :
    ∃ sp d r1 r2 rest, l = sp :: d :: r1 :: r2 :: rest ∧ m = [sp, d, r1, r2] ∧
      sp = (' ') ∧ inwardOK d r1 r2 = true ∧ okAfter rest = true := by
  unfold matchEnd at h
  split at h
  · rename_i sp d r1 r2 rest
    split at h
    · rename_i hcond
      simp only [Bool.and_eq_true, decide_eq_true_eq] at hcond
      injection h with h'
      exact ⟨sp, d, r1, r2, rest, rfl, h'.symm, hcond.1.1, hcond.1.2, hcond.2⟩
    · exact Option.noConfusion h
  · exact Option.noConfusion h

theorem matchEnd_complete (d r1 r2 : Char) (rest : List Char)
    (h1 : inwardOK d r1 r2 = true) (h2 : okAfter rest = true) :
    matchEnd ((' ') :: d :: r1 :: r2 :: rest) = some [(' '), d, r1, r2] := by
  simp [matchEnd, h1, h2]

theorem matchTail_sound (l m : List Char) (h : matchTail l = some m) :
    ∃ rest, l = m ++ rest ∧ okAfter rest = true ∧
      ((∃ d sp d2 r1 r2, m = [d, sp, d2, r1, r2] ∧ isDigitCh d = true ∧
        sp = (' ') ∧ inwardOK d2 r1 r2 = true) ∨
       (∃ d x sp d2 r1 r2, m = [d, x, sp, d2, r1, r2] ∧ isDigitCh d = true ∧
        (isUpper x || isDigitCh x) = true ∧ sp = (' ') ∧
        inwardOK d2 r1 r2 = true)) := by
  unfold matchTail at h
  split at h
  · exact Option.noConfusion h
  · rename_i d rest0
    split at h
    · rename_i hd
      split at h
      · exact Option.noConfusion h
      · rename_i x rest2
        split at h
        · rename_i hx
          split at h
          · rename_i e hme
            injection h with h'
            obtain ⟨sp, d2, r1, r2, rest', hre, hee, hsp, hin, hra⟩ :=
              matchEnd_sound rest2 e hme
            subst hee
            subst hsp
            refine ⟨rest', ?_, hra, Or.inr ⟨d, x, (' '), d2, r1, r2,
              h'.symm, hd, hx, rfl, hin⟩⟩
            rw [← h', hre]
            rfl
          · rename_i hme
            cases hme2 : matchEnd (x :: rest2) with
            | none => rw [hme2] at h; exact Option.noConfusion h
            | some e =>
              rw [hme2] at h
              injection h with h'
              obtain ⟨sp, d2, r1, r2, rest', hre, hee, hsp, hin, hra⟩ :=
                matchEnd_sound (x :: rest2) e hme2
              subst hee
              subst hsp
              refine ⟨rest', ?_, hra, Or.inl ⟨d, (' '), d2, r1, r2,
                h'.symm, hd, rfl, hin⟩⟩
              rw [← h', hre]
              rfl
        · cases hme2 : matchEnd (x :: rest2) with
          | none => rw [hme2] at h; exact Option.noConfusion h
          | some e =>
            rw [hme2] at h
            injection h with h'
            obtain ⟨sp, d2, r1, r2, rest', hre, hee, hsp, hin, hra⟩ :=
              matchEnd_sound (x :: rest2) e hme2
            subst hee
            subst hsp
            refine ⟨rest', ?_, hra, Or.inl ⟨d, (' '), d2, r1, r2,
              h'.symm, hd, rfl, hin⟩⟩
            rw [← h', hre]
            rfl
    · exact Option.noConfusion h

theorem matchTail_complete_noopt (d d2 r1 r2 : Char) (rest : List Char)
    (hd : isDigitCh d = true) (hin : inwardOK d2 r1 r2 = true)
    (hrest : okAfter rest = true) :
    matchTail (d :: (' ') :: d2 :: r1 :: r2 :: rest) =
      some [d, (' '), d2, r1, r2] := by
  have hx : (isUpper (' ') || isDigitCh (' ')) = false := by decide
  simp [matchTail, hd, hx, matchEnd_complete d2 r1 r2 rest hin hrest]

theorem matchTail_complete_opt (d x d2 r1 r2 : Char) (rest : List Char)
    (hd : isDigitCh d = true) (hx : (isUpper x || isDigitCh x) = true)
    (hin : inwardOK d2 r1 r2 = true) (hrest : okAfter rest = true) :
    matchTail (d :: x :: (' ') :: d2 :: r1 :: r2 :: rest) =
      some [d, x, (' '), d2, r1, r2] := by
  simp [matchTail, hd, hx, matchEnd_complete d2 r1 r2 rest hin hrest]

theorem matchHere_one_letter (a : Char) (rest0 : List Char) (m : List Char)
    (ha : isUpper a = true)
    (h : (matchTail rest0).map (fun mm => a :: mm) = some m) :
    ∃ rest, a :: rest0 = m ++ rest ∧ isGrammarPostcode m = true ∧
      okAfter rest = true := by
  cases hmt : matchTail rest0 with
  | none => rw [hmt] at h; exact Option.noConfusion h
  | some t =>
    rw [hmt] at h
    injection h with h'
    obtain ⟨rest', hre, hra, hsh⟩ := matchTail_sound rest0 t hmt
    refine ⟨rest', ?_, ?_, hra⟩
    · rw [← h', hre]
      rfl
    · rcases hsh with ⟨d, sp, d2, r1, r2, ht, hd, hsp, hin⟩ |
        ⟨d, x, sp, d2, r1, r2, ht, hd, hx, hsp, hin⟩
      · subst ht
        subst hsp
        rw [← h']
        simp [isGrammarPostcode, ha, hd, hin]
      · subst ht
        subst hsp
        rw [← h']
        simp [isGrammarPostcode, ha, hd, hx, hin]

theorem matchHere_sound (l m : List Char) (h : matchHere l = some m) :
    ∃ rest, l = m ++ rest ∧ isGrammarPostcode m = true ∧
      okAfter rest = true := by
  unfold matchHere at h
  split at h
  · exact Option.noConfusion h
  · rename_i a rest0
    split at h
    · rename_i ha
      split at h
      · exact Option.noConfusion h
      · rename_i b rest2
        split at h
        · rename_i hb
          split at h
          · rename_i t hmt
            injection h with h'
            obtain ⟨rest', hre, hra, hsh⟩ := matchTail_sound rest2 t hmt
            refine ⟨rest', ?_, ?_, hra⟩
            · rw [← h', hre]
              rfl
            · rcases hsh with ⟨d, sp, d2, r1, r2, ht, hd, hsp, hin⟩ |
                ⟨d, x, sp, d2, r1, r2, ht, hd, hx, hsp, hin⟩
              · subst ht
                subst hsp
                rw [← h']
                simp [isGrammarPostcode, ha, hb, hd, hin]
              · subst ht
                subst hsp
                rw [← h']
                simp [isGrammarPostcode, ha, hb, hd, hx, hin]
          · exact matchHere_one_letter a (b :: rest2) m ha h
        · exact matchHere_one_letter a (b :: rest2) m ha h
    · exact Option.noConfusion h

theorem matchHere_complete (m rest : List Char)
    (hg : isGrammarPostcode m = true) (hrest : okAfter rest = true) :
    matchHere (m ++ rest) = some m := by
  cases m with
  | nil => simp [isGrammarPostcode] at hg
  | cons a m1 =>
  cases m1 with
  | nil => simp [isGrammarPostcode] at hg
  | cons b m2 =>
  cases m2 with
  | nil => simp [isGrammarPostcode] at hg
  | cons c3 m3 =>
  cases m3 with
  | nil => simp [isGrammarPostcode] at hg
  | cons c4 m4 =>
  cases m4 with
  | nil => simp [isGrammarPostcode] at hg
  | cons c5 m5 =>
  cases m5 with
  | nil => simp [isGrammarPostcode] at hg
  | cons c6 m6 =>
  cases m6 with
  | nil =>
    simp only [isGrammarPostcode, Bool.and_eq_true, decide_eq_true_eq] at hg
    obtain ⟨⟨⟨ha, hb⟩, hsp⟩, hin⟩ := hg
    subst hsp
    have hbu := digit_not_upper b hb
    simp [matchHere, ha, hbu, matchTail_complete_noopt b c4 c5 c6 rest hb hin hrest]
  | cons c7 m7 =>
  cases m7 with
  | nil =>
    simp only [isGrammarPostcode, Bool.and_eq_true, Bool.or_eq_true,
      decide_eq_true_eq] at hg
    obtain ⟨⟨hab, hsp⟩, hin⟩ := hg
    subst hsp
    rcases hab with ⟨⟨ha, hb⟩, hc3⟩ | ⟨⟨ha, hb⟩, hx⟩
    · simp [matchHere, ha, hb,
        matchTail_complete_noopt c3 c5 c6 c7 rest hc3 hin hrest]
    · have hbu := digit_not_upper b hb
      have hx' : (isUpper c3 || isDigitCh c3) = true := by
        rcases hx with hx | hx <;> simp [hx]
      simp [matchHere, ha, hbu,
        matchTail_complete_opt b c3 c5 c6 c7 rest hb hx' hin hrest]
  | cons c8 m8 =>
  cases m8 with
  | nil =>
    simp only [isGrammarPostcode, Bool.and_eq_true, Bool.or_eq_true,
      decide_eq_true_eq] at hg
    obtain ⟨⟨⟨⟨⟨ha, hb⟩, hc3⟩, hx⟩, hsp⟩, hin⟩ := hg
    subst hsp
    have hx' : (isUpper c4 || isDigitCh c4) = true := by
      rcases hx with hx | hx <;> simp [hx]
    simp [matchHere, ha, hb,
      matchTail_complete_opt c3 c4 c6 c7 c8 rest hc3 hx' hin hrest]
  | cons c9 m9 => simp [isGrammarPostcode] at hg

/-- One-step unfolding of the position scan. -/
theorem searchFrom_cons (prev : Option Char) (c : Char) (rest : List Char) :
    searchFrom prev (c :: rest) =
      if prevOK prev = true then
        match matchHere (c :: rest) with
        | some m => some m
        | none => searchFrom (some c) rest
      else searchFrom (some c) rest := rfl

/-- If a boundary-respecting grammar substring exists, the search finds
something. -/
theorem searchFrom_complete :
    ∀ (pre : List Char) (prev : Option Char) (m post : List Char),
      isGrammarPostcode m = true → boundaryBefore prev pre = true →
      okAfter post = true →
      ∃ m', searchFrom prev (pre ++ m ++ post) = some m' := by
  intro pre
  induction pre with
  | nil =>
    intro prev m post hg hb hpost
    have hploc : prevOK prev = true := hb
    have hmh := matchHere_complete m post hg hpost
    cases m with
    | nil => simp [isGrammarPostcode] at hg
    | cons c m1 =>
      refine ⟨c :: m1, ?_⟩
      rw [show (([] : List Char) ++ (c :: m1) ++ post : List Char) =
        c :: (m1 ++ post) from by simp]
      rw [searchFrom_cons, if_pos hploc]
      have hmh' : matchHere (c :: (m1 ++ post)) = some (c :: m1) := hmh
      rw [hmh']
  | cons c pre' ih =>
    intro prev m post hg hb hpost
    have hb' : boundaryBefore (some c) pre' = true := hb
    obtain ⟨m', hm'⟩ := ih (some c) m post hg hb' hpost
    rw [show ((c :: pre') ++ m ++ post : List Char) =
      c :: (pre' ++ m ++ post) from by simp]
    rw [searchFrom_cons]
    by_cases hpv : prevOK prev = true
    · rw [if_pos hpv]
      cases hmh : matchHere (c :: (pre' ++ m ++ post)) with
      | some mm => exact ⟨mm, rfl⟩
      | none => exact ⟨m', hm'⟩
    · rw [if_neg hpv]
      exact ⟨m', hm'⟩

/-- Whatever the search returns is a boundary-respecting grammar
substring, and it is the leftmost one: no valid split starts earlier,
and any valid split starting at the same position has the same match. -/
theorem searchFrom_sound :
    ∀ (l : List Char) (prev : Option Char) (m : List Char),
      searchFrom prev l = some m →
      ∃ pre post, l = pre ++ m ++ post ∧ isGrammarPostcode m = true ∧
        boundaryBefore prev pre = true ∧ okAfter post = true ∧
        ∀ pre' m' post', l = pre' ++ m' ++ post' →
          isGrammarPostcode m' = true → boundaryBefore prev pre' = true →
          okAfter post' = true →
          pre.length ≤ pre'.length ∧ (pre'.length = pre.length → m' = m) := by
  intro l
  induction l with
  | nil => intro prev m h; exact Option.noConfusion h
  | cons c rest ih =>
    intro prev m h
    rw [searchFrom_cons] at h
    by_cases hpv : prevOK prev = true
    · rw [if_pos hpv] at h
      cases hmh : matchHere (c :: rest) with
      | some mm =>
        try rw [hmh] at h
        have hmm : mm = m := Option.some.inj h
        subst hmm
        obtain ⟨post, hsplit, hg, hpost⟩ := matchHere_sound (c :: rest) mm hmh
        refine ⟨[], post, by simpa using hsplit, hg, hpv, hpost, ?_⟩
        intro pre' m' post' heq hg' hb' hpost'
        refine ⟨Nat.zero_le _, fun hlen => ?_⟩
        have hpre' : pre' = [] := List.length_eq_zero.1 (by simpa using hlen)
        subst hpre'
        have heq' : m' ++ post' = c :: rest := by simpa using heq.symm
        have hcm := matchHere_complete m' post' hg' hpost'
        rw [heq', hmh] at hcm
        exact (Option.some.inj hcm).symm
      | none =>
        try rw [hmh] at h
        obtain ⟨pre_r, post, hsplit, hg, hbr, hpost, hmin⟩ := ih (some c) m h
        refine ⟨c :: pre_r, post, by rw [hsplit]; rfl, hg, hbr, hpost, ?_⟩
        intro pre' m' post' heq hg' hb' hpost'
        cases pre' with
        | nil =>
          exfalso
          have heq' : m' ++ post' = c :: rest := by simpa using heq.symm
          have hcm := matchHere_complete m' post' hg' hpost'
          rw [heq', hmh] at hcm
          exact Option.noConfusion hcm
        | cons c' pre'' =>
          have h2 := heq
          simp only [List.cons_append] at h2
          have hcc : c = c' := (List.cons.inj h2).1
          have hrest : rest = pre'' ++ m' ++ post' := (List.cons.inj h2).2
          have hb'' : boundaryBefore (some c) pre'' = true := by
            rw [hcc]; exact hb'
          obtain ⟨hle, huniq⟩ := hmin pre'' m' post' hrest hg' hb'' hpost'
          exact ⟨by simpa using Nat.succ_le_succ hle,
            fun hlen => huniq (by simpa using hlen)⟩
    · rw [if_neg hpv] at h
      obtain ⟨pre_r, post, hsplit, hg, hbr, hpost, hmin⟩ := ih (some c) m h
      refine ⟨c :: pre_r, post, by rw [hsplit]; rfl, hg, hbr, hpost, ?_⟩
      intro pre' m' post' heq hg' hb' hpost'
      cases pre' with
      | nil => exact absurd hb' hpv
      | cons c' pre'' =>
        have h2 := heq
        simp only [List.cons_append] at h2
        have hcc : c = c' := (List.cons.inj h2).1
        have hrest : rest = pre'' ++ m' ++ post' := (List.cons.inj h2).2
        have hb'' : boundaryBefore (some c) pre'' = true := by
          rw [hcc]; exact hb'
        obtain ⟨hle, huniq⟩ := hmin pre'' m' post' hrest hg' hb'' hpost'
        exact ⟨by simpa using Nat.succ_le_succ hle,
          fun hlen => huniq (by simpa using hlen)⟩

/-- A grammar match ends in two letters of the restricted alphabet. -/
theorem grammar_last_two (m : List Char) (hg : isGrammarPostcode m = true) :
    ∃ t r1 r2, m = t ++ [r1, r2] ∧ isRestricted r1 = true ∧
      isRestricted r2 = true := by
  have hin : ∀ (d r1 r2 : Char), inwardOK d r1 r2 = true →
      isRestricted r1 = true ∧ isRestricted r2 = true := by
    intro d r1 r2 h
    simp only [inwardOK, Bool.and_eq_true] at h
    exact ⟨h.1.2, h.2⟩
  cases m with
  | nil => simp [isGrammarPostcode] at hg
  | cons a m1 =>
  cases m1 with
  | nil => simp [isGrammarPostcode] at hg
  | cons b m2 =>
  cases m2 with
  | nil => simp [isGrammarPostcode] at hg
  | cons c3 m3 =>
  cases m3 with
  | nil => simp [isGrammarPostcode] at hg
  | cons c4 m4 =>
  cases m4 with
  | nil => simp [isGrammarPostcode] at hg
  | cons c5 m5 =>
  cases m5 with
  | nil => simp [isGrammarPostcode] at hg
  | cons c6 m6 =>
  cases m6 with
  | nil =>
    simp only [isGrammarPostcode, Bool.and_eq_true] at hg
    obtain ⟨h1, h2⟩ := hin _ _ _ hg.2
    exact ⟨[a, b, c3, c4], c5, c6, rfl, h1, h2⟩
  | cons c7 m7 =>
  cases m7 with
  | nil =>
    simp only [isGrammarPostcode, Bool.and_eq_true] at hg
    obtain ⟨h1, h2⟩ := hin _ _ _ hg.2
    exact ⟨[a, b, c3, c4, c5], c6, c7, rfl, h1, h2⟩
  | cons c8 m8 =>
  cases m8 with
  | nil =>
    simp only [isGrammarPostcode, Bool.and_eq_true] at hg
    obtain ⟨h1, h2⟩ := hin _ _ _ hg.2
    exact ⟨[a, b, c3, c4, c5, c6], c7, c8, rfl, h1, h2⟩
  | cons c9 m9 => simp [isGrammarPostcode] at hg

/-- Claim C8 (amended): the grammar of the claim holds of extracted
postcodes only together with the regex's word-boundary anchors.  For
every ASCII address string (the domain on which the embedded boundary
test coincides with the source's Unicode-mode `\b`): if
`extract_postcode` returns a token, that token is a grammar-matching
substring whose occurrence is not adjacent to any word character, no
such boundary-respecting grammar substring starts earlier, any one
starting at the same position is that token, and its last two
characters are drawn from the restricted alphabet; if it returns
absence, the string contains no boundary-respecting grammar substring
at all.  (As stated — without the boundary condition — the claim fails,
see the counterexample.) -/
theorem C8_extract_first_boundary_match (s : String)
    (_hascii : asciiOnly s = true) :
    (∀ m : String, extract_postcode s = some m →
      (∃ pre post, ValidSplit none s.data pre m.data post ∧
        ∀ pre' m' post', ValidSplit none s.data pre' m' post' →
          pre.length ≤ pre'.length ∧
            (pre'.length = pre.length → m' = m.data)) ∧
      ∃ t r1 r2, m.data = t ++ [r1, r2] ∧ isRestricted r1 = true ∧
        isRestricted r2 = true) ∧
    (extract_postcode s = none →
      ∀ pre m post, ¬ ValidSplit none s.data pre m post) := by
  constructor
  · intro m hm
    unfold extract_postcode at hm
    cases hsf : searchFrom none s.data with
    | none => rw [hsf] at hm; exact Option.noConfusion hm
    | some ml =>
      rw [hsf] at hm
      injection hm with hm'
      have hdata : m.data = ml := by rw [← hm']
      obtain ⟨pre, post, hsplit, hg, hb, hpost, hmin⟩ :=
        searchFrom_sound s.data none ml hsf
      refine ⟨⟨pre, post, ⟨by rwa [hdata], by rwa [hdata], hb, hpost⟩,
        ?_⟩, ?_⟩
      · intro pre' m' post' hv
        obtain ⟨heq, hg', hb', hpost'⟩ := hv
        obtain ⟨hle, huniq⟩ := hmin pre' m' post' heq hg' hb' hpost'
        exact ⟨hle, fun hlen => by rw [huniq hlen, hdata]⟩
      · rw [hdata]
        exact grammar_last_two ml hg
  · intro hn pre m post hv
    obtain ⟨heq, hg, hb, hpost⟩ := hv
    obtain ⟨m', hm'⟩ := searchFrom_complete pre none m post hg hb hpost
    unfold extract_postcode at hn
    rw [heq, hm'] at hn
    exact Option.noConfusion hn

/-- Claim C8, counterexample to the claim as stated: the address
`"XSW1A 1AA"` contains the substring `"SW1A 1AA"`, which matches the
claim's postcode grammar, yet `extract_postcode` returns absence — the
regex's `\b` refuses a match preceded by the word character `X`. -/
theorem C8_boundary_blocks_match :
    extract_postcode ("XSW1A 1AA") = none ∧
      ("XSW1A 1AA").data = [('X')] ++ ("SW1A 1AA").data ++ [] ∧
      isGrammarPostcode (("SW1A 1AA").data) = true := by
  decide

/-- Claim C8, witness: on `"Flat 2, SW1A 1AA"` the extractor returns
`"SW1A 1AA"`, whose last two characters are restricted letters. -/
theorem C8_extract_first_boundary_match_w :
    ∃ t r1 r2, (("SW1A 1AA") : String).data = t ++ [r1, r2] ∧
      isRestricted r1 = true ∧ isRestricted r2 = true :=
  ((C8_extract_first_boundary_match ("Flat 2, SW1A 1AA") (by decide)).1
    ("SW1A 1AA") (by decide)).2

/-- Claim C3, witness: a concrete warm rerun with zero queries. -/
theorem C3_warm_cache_idempotent_w :
    runMain providerFound 1
      ((⟨[(("foo"), none, (some 1, some 2))], 1,
        [(("foo"), (some 1, some 2))], [("foo")], 1⟩ : RunOutput)).cache
      [("foo")] =
      Except.ok ⟨(⟨[(("foo"), none, (some 1, some 2))], 1,
        [(("foo"), (some 1, some 2))], [("foo")], 1⟩ : RunOutput).outputs,
        (⟨[(("foo"), none, (some 1, some 2))], 1,
          [(("foo"), (some 1, some 2))], [("foo")], 1⟩ : RunOutput).succeeded,
        (⟨[(("foo"), none, (some 1, some 2))], 1,
          [(("foo"), (some 1, some 2))], [("foo")], 1⟩ : RunOutput).cache, [],
        (⟨[(("foo"), none, (some 1, some 2))], 1,
          [(("foo"), (some 1, some 2))], [("foo")], 1⟩ : RunOutput).rateSleeps⟩ :=
  C3_warm_cache_idempotent providerFound 1 [] [("foo")]
    ⟨[(("foo"), none, (some 1, some 2))], 1, [(("foo"), (some 1, some 2))],
      [("foo")], 1⟩ (by decide) (fun q a => ⟨1, 2, rfl⟩) rfl
